import Mathlib

/-!
Verification development for the brush-stroke sparse label store
(`BrushHashTable`) and the segment-property query engine
(`parseSegmentQuery` / `unparseSegmentQuery` / `executeSegmentQuery` /
`normalizeInlineSegmentPropertyMap`) of this repository.

The TypeScript sources are embedded shallowly:
* machine arithmetic (`>>> 0`, 32-bit `^`) is modelled on `Nat`/`Int` with
  explicit `% 2^32`;
* JavaScript `Map`s are modelled as functions `Nat → Option _`;
* strings are Lean `String`s processed through their character lists;
* host primitives that live outside the reviewed sources (the base
  `HashMapUint64`, `util/lerp.js` data-type helpers, the host `RegExp`
  engine) are modelled from the specification, as marked in their doc
  comments.
-/

namespace NG

/-- Constant `2^32`, the modulus of the 32-bit integer conversions of JavaScript. -/
def pow32 : Nat := 4294967296

/-- JavaScript `n >>> 0` (ToUint32) on an integer-valued number:
reduction modulo `2^32` to the representative in `[0, 2^32)`.
`Int.emod` already returns the non-negative representative. -/
def toUint32 (n : Int) : Nat := (n % (pow32 : Int)).toNat

/-- Core of `BrushHashTable.getBrushKey` on already-truncated coordinates.
In the source the products `x1*73*1271` … are exact double-precision
values (all below `2^53`); the JavaScript `^` operator reduces each
operand modulo `2^32` (ToInt32 keeps exactly the low 32 bits) and xors
the 32-bit patterns, and the trailing `>>> 0` reinterprets the result as
unsigned, so each product enters the xor as its value `% 2^32`. -/
def getBrushKeyCore (z1 y1 x1 : Nat) : Nat :=
  let h1 := ((x1 * 73 * 1271) % pow32) ^^^ ((y1 * 513 * 1345) % pow32) ^^^
    ((z1 * 421 * 675) % pow32)
  let h2 := ((x1 * 127 * 337) % pow32) ^^^ ((y1 * 111 * 887) % pow32) ^^^
    ((z1 * 269 * 325) % pow32)
  h1 + (h2 <<< 32)

/-- Embeds `BrushHashTable.getBrushKey(z, y, x)`: truncates each coordinate with
`>>> 0`, then mixes.  The result is `BigInt(h1) + (BigInt(h2) << 32n)`. -/
def getBrushKey (z y x : Int) : Nat :=
  getBrushKeyCore (toUint32 z) (toUint32 y) (toUint32 x)

/-- State of a `BrushHashTable`.
`map` is the inherited `HashMapUint64` content.  Modelled from the spec:
the base class `HashMapUint64` (`#src/gpu_hash/hash_table.js`) is not part
of the reviewed sources; the spec describes it as a key→value map with
insert/overwrite/delete/lookup, so it is modelled as a finite partial map
from 64-bit keys to values.  `coordinates` is the side map owned by the class
`Map<bigint, [number, number, number]>`. -/
structure BrushHashTable where
  map : Nat → Option Int
  coordinates : Nat → Option (Int × Int × Int)

/-- A freshly constructed, empty `BrushHashTable`. -/
def emptyBrush : BrushHashTable :=
  { map := fun _ => none, coordinates := fun _ => none }

/-- Embeds `Map.set` / `HashMapUint64.set` on the map model. -/
def mapSet {α : Type} (m : Nat → Option α) (k : Nat) (v : α) :
    Nat → Option α :=
  fun q => if q = k then some v else m q

/-- Embeds `Map.delete` / `HashMapUint64.delete` on the map model. -/
def mapDelete {α : Type} (m : Nat → Option α) (k : Nat) : Nat → Option α :=
  fun q => if q = k then none else m q

/-- Embeds `BrushHashTable.addBrushPoint(z, y, x, value)`: computes the key,
deletes any prior entry, inserts the value, and records `[z, y, x]`
(the coordinates as given, not truncated) in the side map. -/
def addBrushPoint (s : BrushHashTable) (z y x v : Int) : BrushHashTable :=
  let key := getBrushKey z y x
  { map := mapSet (mapDelete s.map key) key v
    coordinates := mapSet s.coordinates key (z, y, x) }

/-- Embeds `BrushHashTable.deleteBrushPoint(z, y, x)`: removes the key from both
maps. -/
def deleteBrushPoint (s : BrushHashTable) (z y x : Int) : BrushHashTable :=
  let key := getBrushKey z y x
  { map := mapDelete s.map key
    coordinates := mapDelete s.coordinates key }

/-- Embeds `BrushHashTable.getBrushValue(z, y, x)`: looks the key up in the
primary map (`Number(value)` is the identity on our integer values). -/
def getBrushValue (s : BrushHashTable) (z y x : Int) : Option Int :=
  s.map (getBrushKey z y x)

/-- Embeds `BrushHashTable.hasBrushPoint(z, y, x)`. -/
def hasBrushPoint (s : BrushHashTable) (z y x : Int) : Bool :=
  (s.map (getBrushKey z y x)).isSome

/-- Embeds `BrushHashTable.clear()`: clears the coordinate side map and the
inherited map. -/
def clearBrush (_s : BrushHashTable) : BrushHashTable := emptyBrush

/-- One mutation of the store, for stating invariants over operation
sequences. -/
inductive BrushOp where
  | add (z y x v : Int)
  | del (z y x : Int)
  | clr

/-- Apply one mutation. -/
def applyBrushOp (s : BrushHashTable) : BrushOp → BrushHashTable
  | .add z y x v => addBrushPoint s z y x v
  | .del z y x => deleteBrushPoint s z y x
  | .clr => clearBrush s

/-- Run a sequence of mutations from the empty store. -/
def runBrushOps (ops : List BrushOp) : BrushHashTable :=
  ops.foldl applyBrushOp emptyBrush

/-- The `h1` formula of the claim: `((x*73)*1271) xor ((y*513)*1345) xor
((z*421)*675)` with every multiplication wrapping modulo `2^32`. -/
def h1Claim (x y z : Nat) : Nat :=
  ((x * 73 % pow32) * 1271 % pow32) ^^^ ((y * 513 % pow32) * 1345 % pow32) ^^^
    ((z * 421 % pow32) * 675 % pow32)

/-- The `h2` formula of the claim with constants `127,337,111,887,269,325`,
every multiplication wrapping modulo `2^32`. -/
def h2Claim (x y z : Nat) : Nat :=
  ((x * 127 % pow32) * 337 % pow32) ^^^ ((y * 111 % pow32) * 887 % pow32) ^^^
    ((z * 269 % pow32) * 325 % pow32)

theorem toUint32_ofNat_lt {n : Nat} (h : n < pow32) : toUint32 (n : Int) = n := by
  unfold toUint32
  rw [Int.emod_eq_of_lt (by positivity) (by exact_mod_cast h)]
  exact Int.toNat_natCast n

theorem getBrushKeyCore_eq_claim (z1 y1 x1 : Nat) :
    getBrushKeyCore z1 y1 x1 = h1Claim x1 y1 z1 + h2Claim x1 y1 z1 * 2 ^ 32 := by
  unfold getBrushKeyCore h1Claim h2Claim
  simp only [Nat.shiftLeft_eq, Nat.mod_mul_mod]

/-- C1: for every unsigned-32-bit triple `(z, y, x)`, `getBrushKey` equals
`h1 + (h2 << 32)` with `h1`, `h2` the wrapping-32-bit mixing formulas of
the claim; the function is pure (equal inputs give equal keys), and
`(0,0,0)` maps to key `0`. -/
theorem c1_brush_key_formula (z y x : Nat)
    (hz : z < pow32) (hy : y < pow32) (hx : x < pow32) :
    getBrushKey (z : Int) (y : Int) (x : Int) =
      h1Claim x y z + h2Claim x y z * 2 ^ 32 ∧
    (∀ z2 y2 x2 : Int, z2 = (z : Int) → y2 = (y : Int) → x2 = (x : Int) →
      getBrushKey z2 y2 x2 = getBrushKey (z : Int) (y : Int) (x : Int)) ∧
    getBrushKey 0 0 0 = 0 := by
  refine ⟨?_, ?_, by decide⟩
  · unfold getBrushKey
    rw [toUint32_ofNat_lt hz, toUint32_ofNat_lt hy, toUint32_ofNat_lt hx]
    exact getBrushKeyCore_eq_claim z y x
  · intro z2 y2 x2 h1 h2 h3
    rw [h1, h2, h3]

theorem c1_brush_key_formula_witness :
    getBrushKey (3 : Int) 5 7 = h1Claim 7 5 3 + h2Claim 7 5 3 * 2 ^ 32 ∧
    (∀ z2 y2 x2 : Int, z2 = (3 : Int) → y2 = (5 : Int) → x2 = (7 : Int) →
      getBrushKey z2 y2 x2 = getBrushKey (3 : Int) 5 7) ∧
    getBrushKey 0 0 0 = 0 :=
  c1_brush_key_formula 3 5 7 (by decide) (by decide) (by decide)

/-- C2 counterexample: the store does not reject out-of-range
coordinates.  The coordinate `2^32` (not representable as unsigned
32-bit) is accepted and silently wrapped: its key collides with
coordinate `0`, and a point added at `x = 2^32` becomes retrievable at
`x = 0`.  No `InvalidCoordinate` error exists anywhere in the source. -/
theorem c2_invalid_coordinate_counterexample :
    getBrushKey 0 0 (4294967296 : Int) = getBrushKey 0 0 0 ∧
    hasBrushPoint (addBrushPoint emptyBrush 0 0 4294967296 5) 0 0 0 = true := by
  constructor
  · decide
  · rfl

/-- C2 amended: the operations never reject an input; every coordinate is
silently truncated to unsigned 32-bit by `>>> 0`.  In particular an
out-of-range coordinate is treated exactly like some in-range coordinate:
adding a point there succeeds and stores a value retrievable at the same
(wrapped) key. -/
theorem c2_amended_silent_truncation (z y x : Int)
    (h : ¬(0 ≤ x ∧ x < (pow32 : Int))) :
    (∃ x2 : Int, 0 ≤ x2 ∧ x2 < (pow32 : Int) ∧ x2 ≠ x ∧
      ∀ z0 y0 : Int, getBrushKey z0 y0 x = getBrushKey z0 y0 x2) ∧
    (∀ s v, getBrushValue (addBrushPoint s z y x v) z y x = some v) := by
  constructor
  · refine ⟨x % (pow32 : Int), Int.emod_nonneg x (by decide),
      Int.emod_lt_of_pos x (by decide), ?_, ?_⟩
    · intro hcontra
      exact h (hcontra ▸ ⟨Int.emod_nonneg x (by decide),
        Int.emod_lt_of_pos x (by decide)⟩)
    · intro z0 y0
      unfold getBrushKey toUint32
      rw [Int.emod_emod_of_dvd x dvd_rfl]
  · intro s v
    unfold getBrushValue addBrushPoint mapSet
    simp

theorem c2_amended_silent_truncation_witness :
    (¬(0 ≤ (4294967296 : Int) ∧ (4294967296 : Int) < (pow32 : Int))) ∧
    ((∃ x2 : Int, 0 ≤ x2 ∧ x2 < (pow32 : Int) ∧ x2 ≠ (4294967296 : Int) ∧
      ∀ z0 y0 : Int, getBrushKey z0 y0 4294967296 = getBrushKey z0 y0 x2) ∧
     (∀ s v, getBrushValue (addBrushPoint s 1 2 4294967296 v) 1 2 4294967296
        = some v)) :=
  ⟨by decide, c2_amended_silent_truncation 1 2 4294967296 (by decide)⟩

/-- The lock-step invariant between the primary map and the coordinate
side map. -/
def lockStep (s : BrushHashTable) : Prop :=
  ∀ k : Nat, (s.map k).isSome ↔ (s.coordinates k).isSome

theorem lockStep_empty : lockStep emptyBrush := by
  intro k
  simp [emptyBrush]

theorem lockStep_apply {s : BrushHashTable} (h : lockStep s)
    (op : BrushOp) : lockStep (applyBrushOp s op) := by
  cases op with
  | add z y x v =>
    intro k
    simp only [applyBrushOp, addBrushPoint, mapSet, mapDelete]
    by_cases hk : k = getBrushKey z y x <;> simp [hk, h k]
  | del z y x =>
    intro k
    simp only [applyBrushOp, deleteBrushPoint, mapDelete]
    by_cases hk : k = getBrushKey z y x <;> simp [hk, h k]
  | clr =>
    intro k
    simp [applyBrushOp, clearBrush, emptyBrush]

/-- C3: starting from the empty store, after any sequence of
`addBrushPoint`, `deleteBrushPoint` and `clear` operations, a key is
present in the primary value map exactly when it is present in the
coordinate side map. -/
theorem c3_lockstep_invariant (ops : List BrushOp) (k : Nat) :
    ((runBrushOps ops).map k).isSome ↔
      ((runBrushOps ops).coordinates k).isSome := by
  suffices h : ∀ s, lockStep s → lockStep (ops.foldl applyBrushOp s) from
    h emptyBrush lockStep_empty k
  induction ops with
  | nil => intro s hs; exact hs
  | cons op rest ih =>
    intro s hs
    exact ih (applyBrushOp s op) (lockStep_apply hs op)

theorem brushHashTable_eq {s t : BrushHashTable}
    (hm : s.map = t.map) (hc : s.coordinates = t.coordinates) : s = t := by
  cases s; cases t; cases hm; cases hc; rfl

/-- C8: `addBrushPoint` then `getBrushValue` at the same coordinates
returns the inserted value; a second `addBrushPoint` at the same
coordinates overwrites (only the latest value is retrievable);
`deleteBrushPoint` then `hasBrushPoint` is `false`; and, on any store
satisfying the lock-step invariant (which every store reachable from
construction does), `deleteBrushPoint` of an absent point leaves the
entire store state unchanged (and, being a total function, raises no
error). -/
theorem c8_store_semantics (s : BrushHashTable) (z y x v1 v2 : Int) :
    getBrushValue (addBrushPoint s z y x v1) z y x = some v1 ∧
    getBrushValue (addBrushPoint (addBrushPoint s z y x v1) z y x v2) z y x
      = some v2 ∧
    hasBrushPoint (deleteBrushPoint s z y x) z y x = false ∧
    (lockStep s → hasBrushPoint s z y x = false →
      deleteBrushPoint s z y x = s) := by
  refine ⟨?_, ?_, ?_, ?_⟩
  · simp [getBrushValue, addBrushPoint, mapSet]
  · simp [getBrushValue, addBrushPoint, mapSet]
  · simp [hasBrushPoint, deleteBrushPoint, mapDelete]
  · intro hls h
    have hnone : s.map (getBrushKey z y x) = none := by
      cases hm : s.map (getBrushKey z y x) with
      | none => rfl
      | some v =>
        exact absurd h (by simp [hasBrushPoint, hm])
    have hcnone : s.coordinates (getBrushKey z y x) = none := by
      have := hls (getBrushKey z y x)
      cases hc : s.coordinates (getBrushKey z y x) with
      | none => rfl
      | some c =>
        rw [hnone, hc] at this
        simp at this
    refine brushHashTable_eq ?_ ?_
    · funext q
      simp only [deleteBrushPoint, mapDelete]
      by_cases hq : q = getBrushKey z y x
      · rw [if_pos hq, hq, hnone]
      · rw [if_neg hq]
    · funext q
      simp only [deleteBrushPoint, mapDelete]
      by_cases hq : q = getBrushKey z y x
      · rw [if_pos hq, hq, hcnone]
      · rw [if_neg hq]

theorem c8_store_semantics_witness :
    getBrushValue (addBrushPoint emptyBrush 1 2 3 7) 1 2 3 = some 7 ∧
    getBrushValue (addBrushPoint (addBrushPoint emptyBrush 1 2 3 7) 1 2 3 9)
      1 2 3 = some 9 ∧
    hasBrushPoint (deleteBrushPoint emptyBrush 1 2 3) 1 2 3 = false ∧
    (lockStep emptyBrush → hasBrushPoint emptyBrush 1 2 3 = false →
      deleteBrushPoint emptyBrush 1 2 3 = emptyBrush) :=
  c8_store_semantics emptyBrush 1 2 3 7 9

/-- C10: the coordinate hash is total and truncates each coordinate with
`>>> 0`, so keys are invariant under shifting any coordinate by a
multiple of `2^32`; consequently `getBrushValue`, `hasBrushPoint` and
`deleteBrushPoint` cannot distinguish two coordinate triples that differ
by multiples of `2^32`, and `addBrushPoint` at either triple produces the
same primary map (the coordinate side map keeps the same single key and
records the triple as given). -/
theorem c10_mod_2_32_equivalence (s : BrushHashTable) (z y x k j l v : Int) :
    getBrushKey (z + k * pow32) (y + j * pow32) (x + l * pow32)
      = getBrushKey z y x ∧
    getBrushValue s (z + k * pow32) (y + j * pow32) (x + l * pow32)
      = getBrushValue s z y x ∧
    hasBrushPoint s (z + k * pow32) (y + j * pow32) (x + l * pow32)
      = hasBrushPoint s z y x ∧
    deleteBrushPoint s (z + k * pow32) (y + j * pow32) (x + l * pow32)
      = deleteBrushPoint s z y x ∧
    (addBrushPoint s (z + k * pow32) (y + j * pow32) (x + l * pow32) v).map
      = (addBrushPoint s z y x v).map ∧
    (∀ q : Nat,
      ((addBrushPoint s (z + k * pow32) (y + j * pow32) (x + l * pow32) v
        ).coordinates q).isSome
      = ((addBrushPoint s z y x v).coordinates q).isSome) := by
  have hkey : getBrushKey (z + k * pow32) (y + j * pow32) (x + l * pow32)
      = getBrushKey z y x := by
    unfold getBrushKey toUint32
    rw [show z + k * pow32 = z + (pow32 : Int) * k by ring,
      show y + j * pow32 = y + (pow32 : Int) * j by ring,
      show x + l * pow32 = x + (pow32 : Int) * l by ring,
      Int.add_mul_emod_self_left, Int.add_mul_emod_self_left,
      Int.add_mul_emod_self_left]
  refine ⟨hkey, ?_, ?_, ?_, ?_, ?_⟩
  · unfold getBrushValue; rw [hkey]
  · unfold hasBrushPoint; rw [hkey]
  · unfold deleteBrushPoint; rw [hkey]
  · unfold addBrushPoint; rw [hkey]
  · intro q
    unfold addBrushPoint mapSet
    rw [hkey]
    by_cases hq : q = getBrushKey z y x <;> simp [hq]

/-! ## Segment property map data model -/

/-- The `type` tag of a string-valued inline property
(`"string" | "label" | "description"`). -/
inductive StrKind where
  | stringK
  | labelK
  | descriptionK
deriving DecidableEq, Repr

/-- Embeds `InlineSegmentStringProperty` (the `description` field of the
interface is irrelevant to every operation modelled here and is
omitted). -/
structure StringProperty where
  id : String
  kind : StrKind
  values : List String
deriving DecidableEq, Repr

/-- Embeds `InlineSegmentTagsProperty`.  Each value is a string whose character
codes index into `tags`; values are modelled as their lists of character
codes. -/
structure TagsProperty where
  id : String
  tags : List String
  tagDescriptions : List String
  values : List (List Nat)
deriving DecidableEq, Repr

/-- Embeds `InlineSegmentNumericalProperty` for integer data types: the data
type is represented by its representable range `[dtMin, dtMax]`
(`DataType` and its helpers live in `#src/util/lerp.js`, outside the
reviewed sources; floating-point data types are outside this model).
`bounds` is the declared `DataTypeInterval`. -/
structure NumericalProperty where
  id : String
  dtMin : Int
  dtMax : Int
  boundsLo : Int
  boundsHi : Int
  values : List Int
deriving DecidableEq, Repr

/-- Embeds `InlineSegmentProperty`, the closed union of property kinds. -/
inductive InlineProperty where
  | str (p : StringProperty)
  | tagsOf (p : TagsProperty)
  | num (p : NumericalProperty)
deriving DecidableEq, Repr

/-- Embeds `InlineSegmentPropertyMap`. -/
structure InlineSegmentPropertyMap where
  ids : List Nat
  properties : List InlineProperty
deriving DecidableEq, Repr

/-- Embeds `PreprocessedSegmentPropertyMap` (the id→index permutation hash table
is an internal acceleration structure not needed by the claims; the
`tags` / `labels` / `numericalProperties` members computed by the
constructor are modelled as the accessor functions below, with the same
`find` / `filter` logic). -/
structure PreprocessedSegmentPropertyMap where
  inlineProperties : Option InlineSegmentPropertyMap
deriving DecidableEq, Repr

/-- Embeds `db?.segmentPropertyMap.inlineProperties?.properties` (empty when
absent, as all uses in the parser tolerate). -/
def dbProperties (db : Option PreprocessedSegmentPropertyMap) :
    List InlineProperty :=
  match db with
  | none => []
  | some d =>
    match d.inlineProperties with
    | none => []
    | some ip => ip.properties

/-- Embeds `this.tags = inlineProperties?.properties.find((p) => p.type === "tags")`. -/
def dbTags (db : Option PreprocessedSegmentPropertyMap) :
    Option TagsProperty :=
  (dbProperties db).findSome? fun p =>
    match p with
    | .tagsOf t => some t
    | _ => none

/-- Embeds `this.labels = inlineProperties?.properties.find((p) => p.type === "label")`. -/
def dbLabels (db : Option PreprocessedSegmentPropertyMap) :
    Option StringProperty :=
  (dbProperties db).findSome? fun p =>
    match p with
    | .str sp => if sp.kind = .labelK then some sp else none
    | _ => none

/-- Embeds `this.numericalProperties = inlineProperties?.properties.filter((p) => p.type === "number") ?? []`. -/
def dbNumericalProperties (db : Option PreprocessedSegmentPropertyMap) :
    List NumericalProperty :=
  (dbProperties db).filterMap fun p =>
    match p with
    | .num np => some np
    | _ => none

/-! ## `normalizeInlineSegmentPropertyMap` -/

/-- Embeds `isIdArraySorted` exactly as written in the source: the loop tests
`ids[i] <= ids[0]` for every `i ≥ 1` — it compares each element against
the FIRST element, not against its predecessor. -/
def isIdArraySorted (ids : List Nat) : Bool :=
  match ids with
  | [] => true
  | first :: rest => rest.all fun v => first < v

/-- The check `isIdArraySorted` is documented to perform ("Check if ids
are already sorted."): strict ascending order of adjacent elements.
Modelled from the spec: "ids are unique and, after normalization,
strictly increasing". -/
def isIdArraySortedSpec (ids : List Nat) : Bool :=
  decide (List.Sorted (· < ·) ids)

/-- Permute the `values` column of one property by the given permutation
(`newValues[i] = values[permutation[i]]`). -/
def permuteProperty (perm : List Nat) : InlineProperty → InlineProperty
  | .str p => .str { p with values := perm.map fun i => p.values.getD i "" }
  | .tagsOf p => .tagsOf { p with values := perm.map fun i => p.values.getD i [] }
  | .num p => .num { p with values := perm.map fun i => p.values.getD i 0 }

/-- Embeds `normalizeInlineSegmentPropertyMap`: returns the map unchanged when
`isIdArraySorted` accepts it, otherwise sorts an index permutation by id
(`permutation.sort((a, b) => bigintCompare(ids[a], ids[b]))`; the ids are
unique per the documented invariant, so the comparator is a strict total
order on the indices and every comparison sort yields the same
permutation) and permutes the id array and every value column by it. -/
def normalizeInlineSegmentPropertyMap (ip : InlineSegmentPropertyMap) :
    InlineSegmentPropertyMap :=
  if isIdArraySorted ip.ids then ip
  else
    let n := ip.ids.length
    let perm := (List.range n).insertionSort fun a b =>
      ip.ids.getD a 0 ≤ ip.ids.getD b 0
    { ids := perm.map fun i => ip.ids.getD i 0
      properties := ip.properties.map (permuteProperty perm) }

/-- The label column of the C7 failing input. -/
def c7LabelColumn : StringProperty :=
  { id := "label", kind := .labelK, values := ["a", "b", "c"] }

/-- The failing input for C7: unique ids `[10, 30, 20]`, not sorted, yet
every element after the first exceeds the first. -/
def c7FailingMap : InlineSegmentPropertyMap :=
  { ids := [10, 30, 20]
    properties := [.str c7LabelColumn] }

/-- C7 (code bug): on ids `[10, 30, 20]` the sortedness check of the
source wrongly accepts (it compares each element with `ids[0]` instead of
its predecessor, contradicting its own comment and the spec-intended
check `isIdArraySortedSpec`), so `normalizeInlineSegmentPropertyMap`
returns the map unchanged and its id array is NOT strictly increasing:
normalization fails to sort this permutation of unique ids. -/
theorem c7_normalize_bug_eval :
    isIdArraySorted c7FailingMap.ids = true ∧
    isIdArraySortedSpec c7FailingMap.ids = false ∧
    normalizeInlineSegmentPropertyMap c7FailingMap = c7FailingMap ∧
    ¬ List.Sorted (· < ·)
      (normalizeInlineSegmentPropertyMap c7FailingMap).ids := by
  refine ⟨by decide, by decide, rfl, ?_⟩
  have : decide (List.Sorted (· < ·)
      (normalizeInlineSegmentPropertyMap c7FailingMap).ids) = false := by decide
  exact of_decide_eq_false this

/-! ## Character / string helpers and host primitives -/

/-- JS `String.prototype.toLowerCase` on one character, restricted to
ASCII (all ids and tags exercised by the string comparisons of the engine here
are ASCII). -/
def jsCharLower (c : Char) : Char :=
  if 'A' ≤ c ∧ c ≤ 'Z' then Char.ofNat (c.toNat + 32) else c

/-- JS `toLowerCase` on a string. -/
def jsLower (s : String) : String := ⟨s.data.map jsCharLower⟩

/-- Whether `needle` occurs as a contiguous substring of `hay`. -/
def hasInfix (needle : List Char) : List Char → Bool
  | [] => needle.isEmpty
  | c :: cs => needle.isPrefixOf (c :: cs) || hasInfix needle cs

/-- Modelled from the spec / host environment: the normalization the
`RegExp` constructor applies to its pattern to form `source`
(ECMAScript `EscapeRegExpPattern`), restricted to patterns without
backslashes: each `/` is escaped as `\/`. -/
def jsRegexNormalize (s : String) : String :=
  ⟨s.data.foldr (fun c acc =>
    if c = '/' then '\\' :: '/' :: acc else c :: acc) []⟩

/-- Modelled from the spec / host environment: whether `new RegExp(s)`
succeeds, conservatively restricted to the pattern subset exercised in
this development (alphanumerics, slashes, spaces and backslashes). -/
def jsRegexSyntaxOk (s : String) : Bool :=
  s.data.all fun c => c.isAlphanum || c = '/' || c = ' ' || c = '\\'

/-- Embeds `RegExp.prototype.toString` applied to a regexp with the given
(normalized) `source`: `"/" + source + "/"` (no flags are ever set by the
engine). -/
def jsRegexToString (src : String) : String := "/" ++ src ++ "/"

/-- Modelled from the spec / host environment: `s.match(regexp) !== null`
for the literal (metacharacter-free) patterns exercised here: substring
search. -/
def jsRegexTest (src : String) (s : String) : Bool :=
  hasInfix src.data s.data

/-! ## Explicit-id queries -/

/-- A separator character of the explicit-id pattern, `[,\s]`; JS `\s`
is modelled by its ASCII members. -/
def isSepChar (c : Char) : Bool :=
  c = ',' || c = ' ' || c = '\t' || c = '\n' || c = '\r'

/-- Embeds `queryString.match(idPattern) !== null` for
`idPattern = /^[,\s]*[0-9]+(?:[,\s]+[0-9]+)*[,\s]*$/`.  The pattern
matches exactly the strings over digits and separators that contain at
least one digit: such a string decomposes uniquely into separator runs
and digit runs, which is the shape of the pattern. -/
def idPatternMatches (s : String) : Bool :=
  s.data.all (fun c => c.isDigit || isSepChar c) && s.data.any (·.isDigit)

/-- Embeds `queryString.split(/[\s,]+/)` followed by skipping empty parts: the
maximal nonempty runs of non-separator characters. -/
def splitTokensAux (cur : List Char) : List Char → List (List Char)
  | [] => if cur = [] then [] else [cur.reverse]
  | c :: cs =>
    if isSepChar c then
      if cur = [] then splitTokensAux [] cs
      else cur.reverse :: splitTokensAux [] cs
    else splitTokensAux (c :: cur) cs

/-- All nonempty separator-delimited tokens of a string. -/
def splitTokens (s : List Char) : List (List Char) := splitTokensAux [] s

/-- Decimal value of a digit string. -/
def digitsToNat (l : List Char) : Nat :=
  l.foldl (fun a c => a * 10 + (c.toNat - 48)) 0

/-- Embeds `parseUint64` from `#src/util/json.js` (outside the reviewed
sources).  Modelled from the spec: parses a decimal token as an unsigned
64-bit integer and fails (throws, which the id-query loop turns into a
silent skip) on a non-digit token or a value `≥ 2^64`. -/
def parseUint64 (t : List Char) : Option Nat :=
  if t ≠ [] ∧ t.all Char.isDigit then
    let n := digitsToNat t
    if n < 18446744073709551616 then some n else none
  else none

/-- JS `Set` insertion: append if not yet present (iteration follows
insertion order). -/
def insertUnique (l : List Nat) (n : Nat) : List Nat :=
  if n ∈ l then l else l ++ [n]

/-- The explicit-id branch of `parseSegmentQuery`: split, parse each
token as uint64 (silently skipping failures), deduplicate via a `Set`,
and sort ascending with `bigintCompare` (the deduplicated ids are
distinct, so every comparison sort yields the same list; a structural
insertion sort models it). -/
def parseExplicitIds (s : String) : List Nat :=
  let vals := (splitTokens s.data).filterMap parseUint64
  (vals.foldl insertUnique []).insertionSort (· ≤ ·)

/-! ## Query representation -/

/-- Embeds `QueryParseError` (`begin` / `end` are half-open text offsets). -/
structure QueryParseError where
  beginPos : Nat
  endPos : Nat
  message : String
deriving DecidableEq, Repr

/-- One sort key; `order` is `"<"` (ascending) or `">"` (descending). -/
structure SortKey where
  order : String
  fieldId : String
deriving DecidableEq, Repr

/-- Embeds `NumericalPropertyConstraint`: a field id with its current
`DataTypeInterval` bounds. -/
structure NumericalConstraint where
  fieldId : String
  boundsLo : Int
  boundsHi : Int
deriving DecidableEq, Repr

/-- Embeds `FilterQuery`.  `regexpSource` holds the normalized `source` of the
stored `RegExp`; `prefixStr` is the cumulative label prefix. -/
structure FilterQuery where
  regexpSource : Option String
  prefixStr : Option String
  includeTags : List String
  excludeTags : List String
  numericalConstraints : List NumericalConstraint
  sortBy : List SortKey
  includeColumns : List String
deriving DecidableEq, Repr

/-- Embeds `QueryParseResult = ExplicitIdQuery | FilterQuery | QueryParseErrors`. -/
inductive QueryParseResult where
  | ids (l : List Nat)
  | filt (q : FilterQuery)
  | errs (l : List QueryParseError)
deriving DecidableEq, Repr

/-- The freshly initialized `FilterQuery` of the parser. -/
def emptyFilterQuery : FilterQuery :=
  { regexpSource := none, prefixStr := none, includeTags := [],
    excludeTags := [], numericalConstraints := [], sortBy := [],
    includeColumns := [] }

/-! ## Word scanning -/

/-- The word scan of the parser: maximal nonempty runs of characters delimited
by single spaces (`queryString.indexOf(" ", startIndex)`), each with its
start offset. -/
def splitWordsPos (s : List Char) : List (Nat × List Char) :=
  let fin := s.foldl
    (fun (acc : List (Nat × List Char) × List Char × Nat) c =>
      let (done, cur, pos) := acc
      if c = ' ' then
        (if cur = [] then done else done ++ [(pos - cur.length, cur)],
          [], pos + 1)
      else (done, cur ++ [c], pos + 1))
    ([], [], 0)
  if fin.2.1 = [] then fin.1
  else fin.1 ++ [(fin.2.2 - fin.2.1.length, fin.2.1)]

/-! ## Numerical-constraint token matching -/

/-- First character class of the field group of the constraint pattern,
`[a-zA-Z]`. -/
def isIdentStart (c : Char) : Bool :=
  ('a' ≤ c ∧ c ≤ 'z') || ('A' ≤ c ∧ c ≤ 'Z')

/-- Continuation class of the field group, `[a-zA-Z0-9_]`. -/
def isIdentChar (c : Char) : Bool :=
  isIdentStart c || c.isDigit || c = '_'

/-- The value group `-?[0-9.].*`: an optional minus sign, then one digit
or dot, then anything. -/
def valueShapeOk (r : List Char) : Bool :=
  match r with
  | [] => false
  | '-' :: rest =>
    match rest with
    | [] => false
    | d :: _ => d.isDigit || d = '.'
  | d :: _ => d.isDigit || d = '.'

/-- The operator group `(<|<=|=|>=|>)` with the ordered-alternation
backtracking: `<` is tried before `<=` and succeeds only when the
remainder fits the value group (`=` is not a value start, so `a<=5`
falls through to `<=`); `>=` is tried before `>`. -/
def matchOp (r : List Char) : Option (String × List Char) :=
  match r with
  | '<' :: rest =>
    if valueShapeOk rest then some ("<", rest)
    else
      match rest with
      | '=' :: rest2 => if valueShapeOk rest2 then some ("<=", rest2) else none
      | _ => none
  | '=' :: rest => if valueShapeOk rest then some ("=", rest) else none
  | '>' :: rest =>
    match rest with
    | '=' :: rest2 =>
      if valueShapeOk rest2 then some (">=", rest2)
      else if valueShapeOk rest then some (">", rest) else none
    | _ => if valueShapeOk rest then some (">", rest) else none
  | _ => none

/-- Embeds `word.match(/^([a-zA-Z][a-zA-Z0-9_]*)(<|<=|=|>=|>)(-?[0-9.].*)$/)`:
the field group is the maximal identifier run (no operator character can
begin an identifier, so no shorter run can match). -/
def constraintMatch (w : List Char) : Option (List Char × String × List Char) :=
  match w with
  | [] => none
  | c :: cs =>
    if isIdentStart c then
      let fieldC := c :: cs.takeWhile isIdentChar
      let rest := cs.dropWhile isIdentChar
      match matchOp rest with
      | some (op, v) => some (fieldC, op, v)
      | none => none
    else none

/-! ## Data-type helpers (from `#src/util/lerp.js`, outside the reviewed
sources; all modelled from the spec for integer data types) -/

/-- Modelled from the spec: `clampToInterval([lo, hi], v)`. -/
def clampToInterval (lo hi v : Int) : Int := max lo (min hi v)

/-- Modelled from the spec: `dataTypeCompare` for numbers. -/
def dataTypeCompare (a b : Int) : Int :=
  if a < b then -1 else if b < a then 1 else 0

/-- Modelled from the spec: `dataTypeValueNextAfter` for an integer data
type with representable range `[dtMin, dtMax]`: the adjacent
representable value in the given direction, clamped to the range. -/
def dataTypeValueNextAfter (dtMin dtMax v dir : Int) : Int :=
  max dtMin (min dtMax (v + dir))

/-- Modelled from the spec: `parseDataTypeValue` for an integer data
type: parses an optionally signed decimal integer, failing when the
token is not such an integer or the value is outside `[dtMin, dtMax]`. -/
def parseDataTypeValue (dtMin dtMax : Int) (t : List Char) : Option Int :=
  let core : Option Int :=
    match t with
    | '-' :: ds =>
      if ds ≠ [] ∧ ds.all Char.isDigit then some (-(digitsToNat ds : Int))
      else none
    | ds =>
      if ds ≠ [] ∧ ds.all Char.isDigit then some ((digitsToNat ds : Int))
      else none
  match core with
  | some v => if dtMin ≤ v ∧ v ≤ dtMax then some v else none
  | none => none

/-- The numerical-constraint bounds update of `parseSegmentQuery`,
factored out verbatim: clamp the current bounds to the declared bounds of the property, compute the candidate interval for the operator,
intersect (never widen), and flag the
"Constraint would not match any values" error — in which case the bounds
are left unchanged (the parser `continue`s before assigning).
`constraintCandidate` is the operator `switch`: the candidate interval
before intersection. -/
def constraintCandidate (p : NumericalProperty) (origMin origMax : Int)
    (op : String) (value : Int) : Int × Int :=
  if op = "<" then (origMin, dataTypeValueNextAfter p.dtMin p.dtMax value (-1))
  else if op = "<=" then (origMin, value)
  else if op = "=" then (value, value)
  else if op = ">=" then (value, origMax)
  else (dataTypeValueNextAfter p.dtMin p.dtMax value 1, origMax)

def applyConstraintStep (p : NumericalProperty) (curLo curHi : Int)
    (op : String) (value : Int) : (Int × Int) × Bool :=
  let origMin := clampToInterval p.boundsLo p.boundsHi curLo
  let origMax := clampToInterval p.boundsLo p.boundsHi curHi
  let cand := constraintCandidate p origMin origMax op value
  let newMin := if dataTypeCompare origMin cand.1 > 0 then origMin else cand.1
  let newMax := if dataTypeCompare origMax cand.2 < 0 then origMax else cand.2
  if dataTypeCompare newMin newMax > 0 then ((curLo, curHi), true)
  else ((newMin, newMax), false)

/-! ## `parseSegmentQuery` -/

/-- Parser accumulator: the partially built `FilterQuery` plus the
collected error list (errors are accumulated, not fail-fast). -/
structure ParseState where
  q : FilterQuery
  errors : List QueryParseError
deriving DecidableEq, Repr

/-- Embeds `checkTag`: case-insensitive lookup in the tag vocabulary, restoring
the vocabulary spelling, with "Invalid tag" / "Duplicate tag" errors. -/
def checkTag (tagNames : List String) (q : FilterQuery) (tag : String)
    (beginP endP : Nat) : Sum String QueryParseError :=
  match (tagNames.map jsLower).findIdx? (· = jsLower tag) with
  | none => .inr ⟨beginP, endP, "Invalid tag: " ++ tag⟩
  | some tagIndex =>
    let canon := tagNames.getD tagIndex ""
    if q.includeTags.contains canon ∨ q.excludeTags.contains canon then
      .inr ⟨beginP, endP, "Duplicate tag: " ++ canon⟩
    else .inl canon

/-- Resolution of a sort field: the literal names `id` / `label`, else
the first property whose lowercased id matches and whose type is
`number`, `label` or `string`. -/
def findSortField (props : List InlineProperty) (fid : String) :
    Option String :=
  props.findSome? fun p =>
    match p with
    | .str sp =>
      if (sp.kind = .labelK ∨ sp.kind = .stringK) ∧ jsLower sp.id = fid then
        some sp.id
      else none
    | .num np => if jsLower np.id = fid then some np.id else none
    | .tagsOf _ => none

/-- Resolution of an extra output column: the first property whose
lowercased id matches and whose type is `number` or `string`. -/
def findColumnField (props : List InlineProperty) (fid : String) :
    Option String :=
  props.findSome? fun p =>
    match p with
    | .str sp =>
      if sp.kind = .stringK ∧ jsLower sp.id = fid then some sp.id else none
    | .num np => if jsLower np.id = fid then some np.id else none
    | .tagsOf _ => none

/-- Update (in place, as the source mutates the found object) the bounds
of the constraint with the given field id. -/
def setConstraintBounds (l : List NumericalConstraint) (fid : String)
    (lo hi : Int) : List NumericalConstraint :=
  l.map fun c =>
    if c.fieldId = fid then { c with boundsLo := lo, boundsHi := hi } else c

/-- Process one scanned word of the query string, mirroring the token
classification of `parseSegmentQuery` branch for branch. -/
def parseWord (db : Option PreprocessedSegmentPropertyMap)
    (st : ParseState) (entry : Nat × List Char) : ParseState :=
  let startIndex := entry.1
  let w := entry.2
  let endIndex := startIndex + w.length
  let tagNames : List String := match dbTags db with
    | some tp => tp.tags
    | none => []
  match w with
  | '#' :: t =>
    match checkTag tagNames st.q ⟨t⟩ (startIndex + 1) endIndex with
    | .inl tag => { st with q := { st.q with
        includeTags := st.q.includeTags ++ [tag] } }
    | .inr e => { st with errors := st.errors ++ [e] }
  | '-' :: '#' :: t =>
    match checkTag tagNames st.q ⟨t⟩ (startIndex + 2) endIndex with
    | .inl tag => { st with q := { st.q with
        excludeTags := st.q.excludeTags ++ [tag] } }
    | .inr e => { st with errors := st.errors ++ [e] }
  | c :: t =>
    if c = '<' ∨ c = '>' then
      let fidL := jsLower ⟨t⟩
      let resolved : Option String :=
        if fidL ≠ "id" ∧ fidL ≠ "label" then
          findSortField (dbProperties db) fidL
        else some fidL
      match resolved with
      | none => { st with errors := st.errors ++
          [⟨startIndex + 1, endIndex, "Invalid field: " ++ fidL⟩] }
      | some fieldId =>
        if st.q.sortBy.any (·.fieldId = fieldId) then
          { st with errors := st.errors ++
            [⟨startIndex + 1, endIndex, "Duplicate sort field: " ++ fieldId⟩] }
        else
          { st with q := { st.q with
            sortBy := st.q.sortBy ++ [⟨if c = '<' then "<" else ">", fieldId⟩] } }
    else if c = '|' then
      let fidL := jsLower ⟨t⟩
      if fidL = "id" ∨ fidL = "label" then st
      else
        match findColumnField (dbProperties db) fidL with
        | none => { st with errors := st.errors ++
            [⟨startIndex + 1, endIndex, "Invalid field: " ++ fidL⟩] }
        | some fieldId =>
          if st.q.sortBy.any (·.fieldId = fieldId) ∨
              st.q.includeColumns.contains fieldId then
            st
          else
            { st with q := { st.q with
              includeColumns := st.q.includeColumns ++ [fieldId] } }
    else if c = '/' then
      if st.q.regexpSource.isSome then
        { st with errors := st.errors ++
          [⟨startIndex, endIndex, "Only one regular expression allowed"⟩] }
      else if st.q.prefixStr.isSome then
        { st with errors := st.errors ++
          [⟨startIndex, endIndex,
            "Prefix cannot be combined with regular expression"⟩] }
      else if (dbLabels db).isNone ∧ tagNames.length = 0 then
        { st with errors := st.errors ++
          [⟨startIndex, endIndex, "No label property"⟩] }
      else if jsRegexSyntaxOk ⟨t⟩ then
        { st with q := { st.q with
          regexpSource := some (jsRegexNormalize ⟨t⟩) } }
      else
        { st with errors := st.errors ++
          [⟨startIndex, endIndex, "Invalid regular expression syntax"⟩] }
    else
      match constraintMatch w with
      | some (fieldC, op, valC) =>
        let fidL := jsLower ⟨fieldC⟩
        match (dbNumericalProperties db).find? (fun p => jsLower p.id = fidL) with
        | none => { st with errors := st.errors ++
            [⟨startIndex, startIndex + fidL.length,
              "Invalid numerical field: " ++ fidL⟩] }
        | some p =>
          let fieldId := p.id
          match parseDataTypeValue p.dtMin p.dtMax valC with
          | none => { st with errors := st.errors ++
              [⟨startIndex + fieldC.length + op.length, endIndex,
                "Invalid value"⟩] }
          | some value =>
            let existing := st.q.numericalConstraints.find?
              (fun con => con.fieldId = fieldId)
            let cur : Int × Int := match existing with
              | some con => (con.boundsLo, con.boundsHi)
              | none => (p.boundsLo, p.boundsHi)
            let constraints0 := match existing with
              | some _ => st.q.numericalConstraints
              | none => st.q.numericalConstraints ++
                  [⟨fieldId, p.boundsLo, p.boundsHi⟩]
            let step := applyConstraintStep p cur.1 cur.2 op value
            if step.2 then
              { q := { st.q with numericalConstraints := constraints0 }
                errors := st.errors ++
                  [⟨startIndex, endIndex,
                    "Constraint would not match any values"⟩] }
            else
              let newCons :=
                setConstraintBounds constraints0 fieldId step.1.1 step.1.2
              { st with q := { st.q with numericalConstraints := newCons } }
      | none =>
        if st.q.regexpSource.isSome then
          { st with errors := st.errors ++
            [⟨startIndex, endIndex,
              "Prefix cannot be combined with regular expression"⟩] }
        else if (dbLabels db).isNone ∧ tagNames.length = 0 then
          { st with errors := st.errors ++
            [⟨startIndex, endIndex, "No label property"⟩] }
        else
          match st.q.prefixStr with
          | some pre => { st with q := { st.q with
              prefixStr := some (pre ++ " " ++ (⟨w⟩ : String)) } }
          | none => { st with q := { st.q with prefixStr := some ⟨w⟩ } }
  | [] => st

/-- Embeds `getDefaultSortField(db)`: `"label"` when the database has a tags or
labels column, else `"id"`. -/
def getDefaultSortField (db : Option PreprocessedSegmentPropertyMap) :
    String :=
  if (dbTags db).isSome ∨ (dbLabels db).isSome then "label" else "id"

/-- Embeds `parseSegmentQuery(db, queryString)`. -/
def parseSegmentQuery (db : Option PreprocessedSegmentPropertyMap)
    (queryString : String) : QueryParseResult :=
  if idPatternMatches queryString then
    .ids (parseExplicitIds queryString)
  else
    let st := (splitWordsPos queryString.data).foldl (parseWord db)
      ⟨emptyFilterQuery, []⟩
    if st.errors ≠ [] then .errs st.errors
    else if st.q.sortBy = [] then
      .filt { st.q with sortBy := [⟨"<", getDefaultSortField db⟩] }
    else .filt st.q

/-! ## `unparseSegmentQuery` -/

/-- The token append of the unparser: a single separating space before every
token except the first. -/
def appendToken (queryString w : String) : String :=
  if queryString.length > 0 then queryString ++ " " ++ w else w

/-- Emission of one numerical constraint: skipped when its bounds equal
the declared bounds of the property; `field=v` when the bounds are a point;
otherwise `field>=min` and/or `field<=max` for whichever side is strict.
(The `FLOAT32` shorter-string alternative of the source is vacuous for
the integer data types of this model.)  The source looks the property up
with a non-null assertion; a constraint naming an unknown property would
crash there, so it emits nothing here and is never exercised. -/
def unparseConstraint (db : Option PreprocessedSegmentPropertyMap)
    (acc : String) (c : NumericalConstraint) : String :=
  match (dbNumericalProperties db).find? (fun p => p.id = c.fieldId) with
  | none => acc
  | some p =>
    if c.boundsLo = p.boundsLo ∧ c.boundsHi = p.boundsHi then acc
    else if dataTypeCompare c.boundsLo c.boundsHi = 0 then
      appendToken acc (c.fieldId ++ "=" ++ Int.repr c.boundsLo)
    else
      let acc1 :=
        if dataTypeCompare c.boundsLo p.boundsLo > 0 then
          appendToken acc (c.fieldId ++ ">=" ++ Int.repr c.boundsLo)
        else acc
      if dataTypeCompare c.boundsHi p.boundsHi < 0 then
        appendToken acc1 (c.fieldId ++ "<=" ++ Int.repr c.boundsHi)
      else acc1

/-- Embeds `unparseSegmentQuery(db, query)`.  The source takes
`ExplicitIdQuery | FilterQuery`; the error form (excluded by its type
there) unparses to the empty string here. -/
def unparseSegmentQuery (db : Option PreprocessedSegmentPropertyMap)
    (query : QueryParseResult) : String :=
  match query with
  | .ids l => String.intercalate ", " (l.map Nat.repr)
  | .errs _ => ""
  | .filt q =>
    let s0 : String :=
      match q.prefixStr with
      | some p => p
      | none =>
        match q.regexpSource with
        | some r => "/" ++ jsRegexToString r
        | none => ""
    let s1 := q.includeTags.foldl
      (fun acc tag => appendToken acc ("#" ++ tag)) s0
    let s2 := q.excludeTags.foldl
      (fun acc tag => appendToken acc ("-#" ++ tag)) s1
    let s3 := q.numericalConstraints.foldl (unparseConstraint db) s2
    let sortL : List SortKey :=
      match q.sortBy with
      | [s] =>
        if s.order = "<" ∧ s.fieldId = getDefaultSortField db then [] else [s]
      | l => l
    let s4 := sortL.foldl
      (fun acc s => appendToken acc (s.order ++ s.fieldId)) s3
    q.includeColumns.foldl (fun acc fid => appendToken acc ("|" ++ fid)) s4

/-! ## A concrete demonstration database and the parse/unparse claims -/

/-- Convenience constructor for `FilterQuery` literals. -/
def mkFilterQ (re preS : Option String) (it et : List String)
    (nc : List NumericalConstraint) (sb : List SortKey)
    (ic : List String) : FilterQuery :=
  { regexpSource := re, prefixStr := preS, includeTags := it,
    excludeTags := et, numericalConstraints := nc, sortBy := sb,
    includeColumns := ic }

/-- Demo numerical property `score`, an integer data type with
representable range `[0, 255]` and declared bounds `[0, 10]`. -/
def demoScore : NumericalProperty :=
  { id := "score", dtMin := 0, dtMax := 255, boundsLo := 0, boundsHi := 10,
    values := [1, 5, 9] }

/-- Demo label column. -/
def demoLabels : StringProperty :=
  { id := "label", kind := .labelK, values := ["alpha", "beta", "neuron one"] }

/-- Demo tags column: vocabulary `["aa", "bb"]` with descriptions
`["fine", ""]`; row 0 carries tag 0, row 1 tag 1, row 2 both. -/
def demoTagsColumn : TagsProperty :=
  { id := "tags", tags := ["aa", "bb"], tagDescriptions := ["fine", ""],
    values := [[0], [1], [0, 1]] }

/-- Demo inline property map over segment ids `[1, 2, 3]`. -/
def demoIpm : InlineSegmentPropertyMap :=
  { ids := [1, 2, 3]
    properties := [.str demoLabels, .tagsOf demoTagsColumn, .num demoScore] }

/-- The demo database. -/
def demoDb : Option PreprocessedSegmentPropertyMap :=
  some { inlineProperties := some demoIpm }

/-- The round-trip relation of the claim:
`unparse(parse(unparse(q))) = unparse(q)`. -/
def queryRoundTrips (db : Option PreprocessedSegmentPropertyMap)
    (q : QueryParseResult) : Prop :=
  unparseSegmentQuery db (parseSegmentQuery db (unparseSegmentQuery db q))
    = unparseSegmentQuery db q

/-- A structured query carrying (only) a regular-expression label filter
`/abc/` and the default sort. -/
def c4RegexpQuery : FilterQuery :=
  mkFilterQ (some "abc") none [] [] [] [⟨"<", "label"⟩] []

/-- What reparsing the unparsed form of `c4RegexpQuery` yields: the
unparser emits `"/" + regexp`, and the string form of a `RegExp` carries its
own delimiting slashes, so the emitted text is `"//abc/"` and the
reparsed regexp has source `"\/abc\/"`. -/
def c4ReparsedQuery : FilterQuery :=
  mkFilterQ (some "\\/abc\\/") none [] [] [] [⟨"<", "label"⟩] []

/-- C4 counterexample: for the structured filter query with regexp
`/abc/` over the demo database, `unparse` produces `"//abc/"`, parsing
that produces a query whose regexp source is `"\/abc\/"`, and unparsing
again produces `"//\/abc\//" ≠ "//abc/"` — so
`unparse(parse(unparse(q))) ≠ unparse(q)` and the reparsed structure is
not equivalent to `q` either. -/
theorem c4_roundtrip_counterexample :
    unparseSegmentQuery demoDb (.filt c4RegexpQuery) = "//abc/" ∧
    parseSegmentQuery demoDb "//abc/" = .filt c4ReparsedQuery ∧
    unparseSegmentQuery demoDb (.filt c4ReparsedQuery) = "//\\/abc\\//" ∧
    ¬ queryRoundTrips demoDb (.filt c4RegexpQuery) := by
  refine ⟨by decide, by decide, by decide, ?_⟩
  unfold queryRoundTrips
  decide

/-- C4 amended, representative round trips: tag include/exclude, numeric
range, sorts, free-text label prefixes, extra columns, a combination,
and an explicit id list all satisfy
`unparse(parse(unparse(q))) = unparse(q)` over the demo database. -/
theorem c4_roundtrip_representative :
    queryRoundTrips demoDb
      (.filt (mkFilterQ none none ["aa"] ["bb"] [] [⟨"<", "label"⟩] [])) ∧
    queryRoundTrips demoDb
      (.filt (mkFilterQ none none [] [] [⟨"score", 2, 8⟩]
        [⟨"<", "label"⟩] [])) ∧
    queryRoundTrips demoDb
      (.filt (mkFilterQ none none [] [] [] [⟨">", "score"⟩] [])) ∧
    queryRoundTrips demoDb
      (.filt (mkFilterQ none (some "neuron one") [] [] []
        [⟨"<", "label"⟩] [])) ∧
    queryRoundTrips demoDb
      (.filt (mkFilterQ none none [] [] [] [⟨"<", "label"⟩] ["score"])) ∧
    queryRoundTrips demoDb
      (.filt (mkFilterQ none (some "neu") ["aa"] [] [⟨"score", 0, 5⟩]
        [⟨">", "id"⟩] ["score"])) ∧
    queryRoundTrips demoDb (.ids [3, 5, 10]) := by
  refine ⟨?_, ?_, ?_, ?_, ?_, ?_, ?_⟩ <;> · unfold queryRoundTrips; decide

set_option maxHeartbeats 1000000 in
/-- C5: each numerical-constraint token intersects with — never widens —
the interval established by previous constraints on the same field
(which starts at the declared bounds of the property): when the token is
accepted the new bounds stay inside the current ones, and when the
intersection would be empty the token yields the error
"Constraint would not match any values" and the bounds are left
unchanged.  Concretely, `score>=2 score<=8` over declared bounds
`[0, 10]` parses to effective bounds `[2, 8]`, and `score>=5 score<=3`
produces exactly that parse error for the second token. -/
theorem c5_constraint_narrowing (p : NumericalProperty)
    (curLo curHi value : Int) (op : String)
    (h1 : p.boundsLo ≤ curLo) (h2 : curHi ≤ p.boundsHi) (h3 : curLo ≤ curHi) :
    ((applyConstraintStep p curLo curHi op value).2 = false →
      curLo ≤ (applyConstraintStep p curLo curHi op value).1.1 ∧
      (applyConstraintStep p curLo curHi op value).1.2 ≤ curHi) ∧
    ((applyConstraintStep p curLo curHi op value).2 = true →
      (applyConstraintStep p curLo curHi op value).1 = (curLo, curHi)) ∧
    parseSegmentQuery demoDb "score>=2 score<=8" =
      .filt (mkFilterQ none none [] [] [⟨"score", 2, 8⟩]
        [⟨"<", "label"⟩] []) ∧
    parseSegmentQuery demoDb "score>=5 score<=3" =
      .errs [⟨9, 17, "Constraint would not match any values"⟩] := by
  have hmin : clampToInterval p.boundsLo p.boundsHi curLo = curLo := by
    unfold clampToInterval; omega
  have hmax : clampToInterval p.boundsLo p.boundsHi curHi = curHi := by
    unfold clampToInterval; omega
  obtain ⟨c1, c2, hc⟩ :
      ∃ c1 c2, constraintCandidate p curLo curHi op value = (c1, c2) :=
    ⟨_, _, rfl⟩
  have key :
      ((applyConstraintStep p curLo curHi op value).2 = false →
        curLo ≤ (applyConstraintStep p curLo curHi op value).1.1 ∧
        (applyConstraintStep p curLo curHi op value).1.2 ≤ curHi) ∧
      ((applyConstraintStep p curLo curHi op value).2 = true →
        (applyConstraintStep p curLo curHi op value).1 = (curLo, curHi)) := by
    simp only [applyConstraintStep, hmin, hmax, hc, dataTypeCompare]
    split_ifs <;> refine ⟨fun hf => ?_, fun ht => ?_⟩ <;>
      simp only [Prod.fst, Prod.snd] at * <;> omega
  exact ⟨key.1, key.2, by decide, by decide⟩

theorem c5_constraint_narrowing_witness :
    ((applyConstraintStep demoScore 2 8 "<=" 5).2 = false →
      2 ≤ (applyConstraintStep demoScore 2 8 "<=" 5).1.1 ∧
      (applyConstraintStep demoScore 2 8 "<=" 5).1.2 ≤ 8) ∧
    ((applyConstraintStep demoScore 2 8 "<=" 5).2 = true →
      (applyConstraintStep demoScore 2 8 "<=" 5).1 = (2, 8)) ∧
    parseSegmentQuery demoDb "score>=2 score<=8" =
      .filt (mkFilterQ none none [] [] [⟨"score", 2, 8⟩]
        [⟨"<", "label"⟩] []) ∧
    parseSegmentQuery demoDb "score>=5 score<=3" =
      .errs [⟨9, 17, "Constraint would not match any values"⟩] :=
  c5_constraint_narrowing demoScore 2 8 5 "<=" (by decide) (by decide)
    (by decide)

theorem insertUnique_nodup {l : List Nat} (n : Nat) (h : l.Nodup) :
    (insertUnique l n).Nodup := by
  unfold insertUnique
  split_ifs with hmem
  · exact h
  · simp [List.nodup_append, h, hmem]

theorem foldl_insertUnique_nodup (vals : List Nat) :
    ∀ acc : List Nat, acc.Nodup → (vals.foldl insertUnique acc).Nodup := by
  induction vals with
  | nil => intro acc h; exact h
  | cons v rest ih =>
    intro acc h
    exact ih (insertUnique acc v) (insertUnique_nodup v h)

theorem sorted_parseExplicitIds (s : String) :
    List.Sorted (· < ·) (parseExplicitIds s) := by
  have hperm := (List.perm_insertionSort (· ≤ ·)
    (((splitTokens s.data).filterMap parseUint64).foldl insertUnique [])).symm
  have hnodup := hperm.nodup
    (foldl_insertUnique_nodup ((splitTokens s.data).filterMap parseUint64) []
      List.nodup_nil)
  have hsorted := List.sorted_insertionSort (· ≤ ·)
    (((splitTokens s.data).filterMap parseUint64).foldl insertUnique [])
  simp only [parseExplicitIds]
  exact hsorted.lt_of_le hnodup

/-- C9: every query string consisting of unsigned decimal integers
separated by commas/whitespace parses as an explicit-id query whose id
list is deduplicated and sorted strictly ascending, for any database;
`"5, 3,3 10"` parses to `[3, 5, 10]`, and invalid numeric tokens (such
as a 26-digit number exceeding the uint64 range) are silently skipped
rather than reported as errors. -/
theorem c9_explicit_id_query :
    (∀ (db : Option PreprocessedSegmentPropertyMap) (s : String),
      idPatternMatches s = true →
      parseSegmentQuery db s = .ids (parseExplicitIds s) ∧
      List.Sorted (· < ·) (parseExplicitIds s) ∧
      (parseExplicitIds s).Nodup) ∧
    parseSegmentQuery none "5, 3,3 10" = .ids [3, 5, 10] ∧
    parseSegmentQuery none "5, 99999999999999999999999999 3" =
      .ids [3, 5] := by
  refine ⟨?_, by decide, by decide⟩
  intro db s h
  refine ⟨by simp [parseSegmentQuery, h], sorted_parseExplicitIds s, ?_⟩
  exact (sorted_parseExplicitIds s).nodup

theorem c9_explicit_id_query_witness :
    parseSegmentQuery none "7 2" = .ids (parseExplicitIds "7 2") ∧
    List.Sorted (· < ·) (parseExplicitIds "7 2") ∧
    (parseExplicitIds "7 2").Nodup :=
  c9_explicit_id_query.1 none "7 2" (by decide)

/-! ## `executeSegmentQuery` -/

/-- Embeds `TagCount`. -/
structure TagCount where
  tag : String
  tagIndex : Nat
  count : Nat
  desc : String
deriving DecidableEq, Repr

/-- Embeds `QueryResult` (fields absent in the object literals of the source are
`none`).  `count` and `total` are JS numbers (`total` can be `-1`). -/
structure QueryResult where
  query : QueryParseResult
  intermediateIndices : Option (List Nat)
  intermediateIndicesMask : Option (List Nat)
  indices : Option (List Nat)
  explicitIds : Option (List Nat)
  tagsStats : Option (List TagCount)
  count : Int
  total : Int
  errors : Option (List QueryParseError)
deriving DecidableEq, Repr

/-- Embeds `filterByTagDescriptions(regexp)`: resets `showTags` and marks each
tag whose description or name matches the regexp.  (With no tags column
the source would dereference `db!.tags!` and throw; the vacuous empty
list stands in for that unreachable state.) -/
def execFallbackShowTags (db : Option PreprocessedSegmentPropertyMap)
    (r : String) (totalTags : Nat) : List Bool :=
  match dbTags db with
  | some tp => (List.range totalTags).map fun i =>
      jsRegexTest r (tp.tagDescriptions.getD i "") ||
        jsRegexTest r (tp.tags.getD i "")
  | none => List.replicate totalTags false

/-- The label-filter stage of `executeSegmentQuery`, including the regexp
fallback: filter by regexp and/or prefix against the label column; when a
regexp is set and either labels are absent or the filtered row set is
empty, restart from all rows, recompute `showTags` from tag
names/descriptions, and clear `query.regexp` so it is not applied
again. -/
def execLabelStage (db : Option PreprocessedSegmentPropertyMap)
    (q : FilterQuery) (totalIds totalTags : Nat) :
    List Nat × List Bool × FilterQuery :=
  let indices0 := List.range totalIds
  let showTags0 := List.replicate totalTags true
  if q.regexpSource.isSome ∨ q.prefixStr.isSome then
    let afterLabel :=
      match dbLabels db with
      | some lp =>
        let af1 := match q.regexpSource with
          | some r => indices0.filter fun i =>
              jsRegexTest r (lp.values.getD i "")
          | none => indices0
        match q.prefixStr with
        | some pre => af1.filter fun i =>
            (lp.values.getD i "").startsWith pre
        | none => af1
      | none => indices0
    if (afterLabel.isEmpty ∧ q.regexpSource.isSome) ∨
        ((dbLabels db).isNone ∧ q.regexpSource.isSome) then
      (indices0, execFallbackShowTags db (q.regexpSource.getD "") totalTags,
        { q with regexpSource := none })
    else (afterLabel, showTags0, q)
  else (indices0, showTags0, q)

/-- The include/exclude tag filter.  The source builds a regular
expression over the sorted tag indices and matches it against the tag-code string of each row; on code strings that are distinct and sorted (the
documented invariant of `InlineSegmentTagsProperty.values`) that regular
expression accepts exactly the rows containing every included tag index
and no excluded one, which is the semantics modelled here.  A missing
tags column would make the source throw on `tagsProperty!`; queries are
validated, so that state is unreachable and rows pass through. -/
def execTagFilter (db : Option PreprocessedSegmentPropertyMap)
    (q : FilterQuery) (indices : List Nat) : List Nat :=
  if q.includeTags.length > 0 ∨ q.excludeTags.length > 0 then
    match dbTags db with
    | some tp =>
      let incIdx := q.includeTags.map fun t => tp.tags.findIdx (· = t)
      let excIdx := q.excludeTags.map fun t => tp.tags.findIdx (· = t)
      indices.filter fun i =>
        let v := tp.values.getD i []
        incIdx.all (fun t => v.contains t) &&
          excIdx.all (fun t => !v.contains t)
    | none => indices
  else indices

/-- The numeric-constraint stage: a per-row bitmask of which constraints
pass (`value >= min && value <= max`), saved with the pre-filter index
set as the "intermediate" results, then reduction to the rows whose mask
is full. -/
def execNumericStage (db : Option PreprocessedSegmentPropertyMap)
    (q : FilterQuery) (indices : List Nat) :
    Option (List Nat) × Option (List Nat) × List Nat :=
  if q.numericalConstraints.length > 0 then
    let n := q.numericalConstraints.length
    let fullMask := 2 ^ n - 1
    let mask := indices.map fun i =>
      (List.range n).foldl (fun acc ci =>
        match q.numericalConstraints.getD ci ⟨"", 0, 0⟩ with
        | c =>
          match (dbNumericalProperties db).find? (fun p => p.id = c.fieldId) with
          | some p =>
            let v := p.values.getD i 0
            if c.boundsLo ≤ v ∧ v ≤ c.boundsHi then acc + 2 ^ ci else acc
          | none => acc) 0
    let kept := (indices.zip mask).filterMap fun e =>
      if e.2 = fullMask then some e.1 else none
    (some indices, some mask, kept)
  else (none, none, indices)

/-- The tag-statistics block: per-tag occurrence counts over the final
row set; tags hidden by `showTags` are skipped; tags referenced by the include/exclude lists of the query are always reported and come first,
followed by the other visible tags with nonzero count, in vocabulary
order. -/
def tagOccCount (tp : TagsProperty) (indices : List Nat) (t : Nat) : Nat :=
  indices.foldl (fun acc i => acc + (tp.values.getD i []).count t) 0

/-- One iteration of the tag-statistics loop: `none` when the tag is
hidden by `showTags` or has zero count and is not referenced by the
query; otherwise the `TagCount` tagged with whether it belongs to the
in-query group (which is emitted first). -/
def tagStatEntry (q : FilterQuery) (tp : TagsProperty)
    (showTags : List Bool) (indices : List Nat) (t : Nat) :
    Option (Bool × TagCount) :=
  if showTags.getD t false then
    if q.includeTags.contains (tp.tags.getD t "") ∨
        q.excludeTags.contains (tp.tags.getD t "") then
      some (true, ⟨tp.tags.getD t "", t, tagOccCount tp indices t,
        tp.tagDescriptions.getD t ""⟩)
    else if tagOccCount tp indices t > 0 then
      some (false, ⟨tp.tags.getD t "", t, tagOccCount tp indices t,
        tp.tagDescriptions.getD t ""⟩)
    else none
  else none

def execTagStats (q : FilterQuery) (tp : TagsProperty)
    (showTags : List Bool) (indices : List Nat) : List TagCount :=
  let entries := (List.range tp.tags.length).filterMap
    (tagStatEntry q tp showTags indices)
  (entries.filterMap fun e => if e.1 then some e.2 else none) ++
    (entries.filterMap fun e => if e.1 then none else some e.2)

/-- Embeds `defaultStringCompare` from `#src/util/string.js` (outside the
reviewed sources).  Modelled from the spec: default (code-unit
lexicographic) string comparison returning `-1` / `0` / `1`. -/
def defaultStringCompare (a b : String) : Int :=
  if a < b then -1 else if b < a then 1 else 0

/-- Code-unit lexicographic comparison of tag-code strings. -/
def tagCodesCompare (a b : List Nat) : Int :=
  match a, b with
  | [], [] => 0
  | [], _ :: _ => -1
  | _ :: _, [] => 1
  | x :: xs, y :: ys =>
    if x < y then -1 else if y < x then 1 else tagCodesCompare xs ys

/-- Embeds `indices.sort((a, b) => cmp(a, b) * orderCoeff)` with the stable JS
sort, modelled by a stable structural insertion sort. -/
def sortWithCmp (indices : List Nat) (cmp : Nat → Nat → Int) : List Nat :=
  indices.insertionSort fun a b => cmp a b ≤ 0

/-- Embeds `sortByProperty`. -/
def sortByProperty (p : InlineProperty) (orderCoeff : Int)
    (indices : List Nat) : List Nat :=
  match p with
  | .str sp => sortWithCmp indices fun a b =>
      defaultStringCompare (sp.values.getD a "") (sp.values.getD b "") *
        orderCoeff
  | .tagsOf tp => sortWithCmp indices fun a b =>
      tagCodesCompare (tp.values.getD a []) (tp.values.getD b []) * orderCoeff
  | .num np => sortWithCmp indices fun a b =>
      (np.values.getD a 0 - np.values.getD b 0) * orderCoeff

/-- Embeds `sortByLabel`: sort by the tag-code strings, then by the label
strings (each pass stable). -/
def sortByLabel (db : Option PreprocessedSegmentPropertyMap)
    (orderCoeff : Int) (indices : List Nat) : List Nat :=
  let idx1 := match dbTags db with
    | some tp => sortByProperty (.tagsOf tp) orderCoeff indices
    | none => indices
  match dbLabels db with
  | some lp => sortByProperty (.str lp) orderCoeff idx1
  | none => idx1

/-- One pass of the sort loop for the key at position `i` (`isLast` is
`i + 1 === sortBy.length`): ascending `id` as the final key is the
identity, descending final `id` reverses, non-final `id` sorts by row
index; `label` composes tag and label passes; any other field sorts by
that property (the non-null `find` of the source would throw on an unknown
field, which validated queries make unreachable). -/
def applySortKey (db : Option PreprocessedSegmentPropertyMap)
    (ip : InlineSegmentPropertyMap) (s : SortKey) (isLast : Bool)
    (indices : List Nat) : List Nat :=
  let orderCoeff : Int := if s.order = "<" then 1 else -1
  if s.fieldId = "id" then
    if isLast then
      if s.order = "<" then indices else indices.reverse
    else sortWithCmp indices fun a b => ((a : Int) - b) * orderCoeff
  else if s.fieldId = "label" then sortByLabel db orderCoeff indices
  else
    match ip.properties.find? (fun p =>
      match p with
      | .str sp => sp.id = s.fieldId
      | .tagsOf tp => tp.id = s.fieldId
      | .num np => np.id = s.fieldId) with
    | some p => sortByProperty p orderCoeff indices
    | none => indices

/-- The sort loop: keys applied from the last to the first, relying on
stability for the composite order. -/
def applySortKeys (db : Option PreprocessedSegmentPropertyMap)
    (ip : InlineSegmentPropertyMap) (sortL : List SortKey)
    (indices : List Nat) : List Nat :=
  (List.range sortL.length).reverse.foldl
    (fun cur i =>
      applySortKey db ip (sortL.getD i ⟨"<", "id"⟩) (i + 1 = sortL.length) cur)
    indices

/-- Embeds `executeSegmentQuery(db, query)`. -/
def executeSegmentQuery (db : Option PreprocessedSegmentPropertyMap)
    (query : QueryParseResult) : QueryResult :=
  match query with
  | .errs es => ⟨query, none, none, none, none, none, 0, -1, some es⟩
  | .ids l => ⟨query, none, none, none, some l, none, l.length, -1, none⟩
  | .filt q =>
    match db with
    | none => ⟨query, none, none, none, none, none, 0, -1, none⟩
    | some d =>
      match d.inlineProperties with
      | none => ⟨query, none, none, none, none, none, 0, -1, none⟩
      | some ip =>
        let totalIds := ip.ids.length
        let totalTags := match dbTags db with
          | some tp => tp.tags.length
          | none => 0
        let stage1 := execLabelStage db q totalIds totalTags
        let indices1 := stage1.1
        let showTags1 := stage1.2.1
        let q1 := stage1.2.2
        let indices2 := execTagFilter db q1 indices1
        let stage3 := execNumericStage db q1 indices2
        let indices3 := stage3.2.2
        let tagStats : List TagCount := match dbTags db with
          | some tp => execTagStats q1 tp showTags1 indices3
          | none => []
        let sorted := applySortKeys db ip q1.sortBy indices3
        ⟨.filt q1, stage3.1, stage3.2.1, some sorted, none, some tagStats,
          sorted.length, totalIds, none⟩

theorem execLabelStage_fallback_eq (d : PreprocessedSegmentPropertyMap)
    (ip : InlineSegmentPropertyMap) (q : FilterQuery) (r : String)
    (hre : q.regexpSource = some r)
    (hpre : q.prefixStr = none)
    (hnolabel : ∀ lp, dbLabels (some d) = some lp →
      ∀ i ∈ List.range ip.ids.length,
        jsRegexTest r (lp.values.getD i "") = false) :
    ∀ tt, execLabelStage (some d) q ip.ids.length tt =
      (List.range ip.ids.length, execFallbackShowTags (some d) r tt,
        { q with regexpSource := none }) := by
  intro tt
  unfold execLabelStage
  cases hl : dbLabels (some d) with
  | none => simp [hl, hre, hpre]
  | some lp =>
    have hno2 : ∀ a, a < ip.ids.length →
        jsRegexTest r (lp.values[a]?.getD "") = false := fun a ha => by
      have := hnolabel lp hl a (List.mem_range.mpr ha)
      simpa [List.getD] using this
    simp only [hl, hre, hpre]
    simp
    intro x hx hmatch
    rw [hno2 x hx] at hmatch
    exact absurd hmatch (by simp)

theorem tagStatEntry_eq_some {q : FilterQuery} {tp : TagsProperty}
    {showTags : List Bool} {idx : List Nat} {t : Nat} {e : Bool × TagCount}
    (h : tagStatEntry q tp showTags idx t = some e) :
    showTags.getD t false = true ∧ e.2.tag = tp.tags.getD t "" ∧
      e.2.desc = tp.tagDescriptions.getD t "" := by
  unfold tagStatEntry at h
  split at h
  · split at h
    · cases h
      exact ⟨by assumption, rfl, rfl⟩
    · split at h
      · cases h
        exact ⟨by assumption, rfl, rfl⟩
      · exact Option.noConfusion h
  · exact Option.noConfusion h

theorem mem_execTagStats {q : FilterQuery} {tp : TagsProperty}
    {showTags : List Bool} {idx : List Nat} {tc : TagCount}
    (h : tc ∈ execTagStats q tp showTags idx) :
    ∃ t, showTags.getD t false = true ∧ tc.tag = tp.tags.getD t "" ∧
      tc.desc = tp.tagDescriptions.getD t "" := by
  unfold execTagStats at h
  rw [List.mem_append] at h
  rcases h with h | h <;>
    · rw [List.mem_filterMap] at h
      obtain ⟨e, he, hif⟩ := h
      rw [List.mem_filterMap] at he
      obtain ⟨t, _, hsome⟩ := he
      obtain ⟨hst, htag, hdesc⟩ := tagStatEntry_eq_some hsome
      have : tc = e.2 := by split at hif <;> simp_all
      exact ⟨t, hst, this ▸ htag, this ▸ hdesc⟩

theorem execFallbackShowTags_getD_true {db : Option PreprocessedSegmentPropertyMap}
    {r : String} {totalTags t : Nat}
    (h : (execFallbackShowTags db r totalTags).getD t false = true) :
    ∃ tp, dbTags db = some tp ∧
      (jsRegexTest r (tp.tagDescriptions.getD t "") = true ∨
        jsRegexTest r (tp.tags.getD t "") = true) := by
  unfold execFallbackShowTags at h
  cases hdb : dbTags db with
  | none =>
    rw [hdb] at h
    rcases Nat.lt_or_ge t totalTags with hlt | hge
    · rw [List.getD_eq_getElem?_getD] at h
      simp [List.getElem?_replicate, hlt] at h
    · rw [List.getD_eq_getElem?_getD, List.getElem?_eq_none] at h
      · simp at h
      · simpa using hge
  | some tp =>
    rw [hdb] at h
    refine ⟨tp, rfl, ?_⟩
    rcases Nat.lt_or_ge t totalTags with hlt | hge
    · rw [List.getD_eq_getElem?_getD] at h
      rw [List.getElem?_map] at h
      simp [List.getElem?_range, hlt] at h
      rw [List.getD_eq_getElem?_getD, List.getD_eq_getElem?_getD]
      exact h
    · rw [List.getD_eq_getElem?_getD, List.getElem?_eq_none] at h
      · simp at h
      · simpa using hge

/-- C6 amended: when a regexp label filter is set (no prefix, no tag or
numeric constraints, ascending-id sort) and either the database has no
label column or the regexp matches no label, the executor restarts from
the full row set and keeps ALL rows — it does not filter rows by their
tags/descriptions; instead it re-applies the regexp to the tag
vocabulary, so every tag reported in the statistics of the result has a
matching name or description, and the returned query has its regexp
cleared so it is not applied again. -/
theorem c6_fallback_amended (d : PreprocessedSegmentPropertyMap)
    (ip : InlineSegmentPropertyMap) (q : FilterQuery) (r : String)
    (hip : d.inlineProperties = some ip)
    (hre : q.regexpSource = some r)
    (hpre : q.prefixStr = none)
    (hinc : q.includeTags = []) (hexc : q.excludeTags = [])
    (hnc : q.numericalConstraints = [])
    (hsort : q.sortBy = [⟨"<", "id"⟩])
    (hnolabel : ∀ lp, dbLabels (some d) = some lp →
      ∀ i ∈ List.range ip.ids.length,
        jsRegexTest r (lp.values.getD i "") = false) :
    (executeSegmentQuery (some d) (.filt q)).indices =
      some (List.range ip.ids.length) ∧
    (executeSegmentQuery (some d) (.filt q)).query =
      .filt { q with regexpSource := none } ∧
    (∀ tcs, (executeSegmentQuery (some d) (.filt q)).tagsStats = some tcs →
      ∀ tc ∈ tcs, jsRegexTest r tc.tag = true ∨ jsRegexTest r tc.desc = true) := by
  have hstage1 := execLabelStage_fallback_eq d ip q r hre hpre hnolabel
  have hq1inc : ({ q with regexpSource := none } : FilterQuery).includeTags = [] := hinc
  have hq1exc : ({ q with regexpSource := none } : FilterQuery).excludeTags = [] := hexc
  have htagf : ∀ idx, execTagFilter (some d) { q with regexpSource := none } idx = idx := by
    intro idx
    unfold execTagFilter
    simp [hinc, hexc]
  have hnum : ∀ idx, execNumericStage (some d) { q with regexpSource := none } idx =
      (none, none, idx) := by
    intro idx
    unfold execNumericStage
    simp [hnc]
  have hsortk : ∀ idx, applySortKeys (some d) ip q.sortBy idx = idx := by
    intro idx
    rw [hsort]
    unfold applySortKeys
    simp [applySortKey, List.range_succ]
  have hexec : executeSegmentQuery (some d) (.filt q) =
      ⟨.filt { q with regexpSource := none }, none, none,
        some (List.range ip.ids.length), none,
        some (match dbTags (some d) with
          | some tp => execTagStats { q with regexpSource := none } tp
              (execFallbackShowTags (some d) r
                (match dbTags (some d) with
                  | some tp2 => tp2.tags.length
                  | none => 0))
              (List.range ip.ids.length)
          | none => []),
        (List.range ip.ids.length).length, ip.ids.length, none⟩ := by
    unfold executeSegmentQuery
    simp only [hip, hstage1, htagf, hnum, hsortk]
  refine ⟨by rw [hexec], by rw [hexec], ?_⟩
  intro tcs htcs tc htc
  rw [hexec] at htcs
  simp only [Option.some.injEq] at htcs
  cases hdb : dbTags (some d) with
  | none =>
    rw [hdb] at htcs
    simp at htcs
    subst htcs
    cases htc
  | some tp =>
    rw [hdb] at htcs
    simp only at htcs
    subst htcs
    obtain ⟨t, hst, htag, hdesc⟩ := mem_execTagStats htc
    obtain ⟨tp2, hdb2, hmatch⟩ := execFallbackShowTags_getD_true hst
    rw [hdb] at hdb2
    cases hdb2
    rcases hmatch with hm | hm
    · exact Or.inr (hdesc ▸ hm)
    · exact Or.inl (htag ▸ hm)

/-- The C6 query: regexp `/fine/` with the (skipped) ascending-id sort. -/
def c6FallbackQuery : FilterQuery :=
  mkFilterQ (some "fine") none [] [] [] [⟨"<", "id"⟩] []

/-- C6 counterexample: over the demo database no label matches `/fine/`,
so the fallback fires; the claim says exactly the rows whose tag names or
descriptions match are kept, but the executor keeps all three rows — in
particular row 1, which carries only tag 1 (`"bb"`, empty description),
matching nothing. -/
theorem c6_fallback_counterexample :
    (executeSegmentQuery demoDb (.filt c6FallbackQuery)).indices =
      some [0, 1, 2] ∧
    jsRegexTest "fine" (demoLabels.values.getD 0 "") = false ∧
    jsRegexTest "fine" (demoLabels.values.getD 1 "") = false ∧
    jsRegexTest "fine" (demoLabels.values.getD 2 "") = false ∧
    demoTagsColumn.values.getD 1 [] = [1] ∧
    jsRegexTest "fine" (demoTagsColumn.tags.getD 1 "") = false ∧
    jsRegexTest "fine" (demoTagsColumn.tagDescriptions.getD 1 "") = false := by
  decide

theorem c6_fallback_amended_witness :
    (executeSegmentQuery demoDb (.filt c6FallbackQuery)).indices =
      some (List.range demoIpm.ids.length) ∧
    (executeSegmentQuery demoDb (.filt c6FallbackQuery)).query =
      .filt { c6FallbackQuery with regexpSource := none } ∧
    (∀ tcs,
      (executeSegmentQuery demoDb (.filt c6FallbackQuery)).tagsStats =
        some tcs →
      ∀ tc ∈ tcs, jsRegexTest "fine" tc.tag = true ∨
        jsRegexTest "fine" tc.desc = true) :=
  c6_fallback_amended ⟨some demoIpm⟩ demoIpm c6FallbackQuery "fine" rfl rfl
    rfl rfl rfl rfl rfl
    (fun lp hlp i hi => by
      have hdl : dbLabels (some ⟨some demoIpm⟩) = some demoLabels := by decide
      rw [hdl] at hlp
      injection hlp with hlp2
      subst hlp2
      have hi3 : i < 3 := by simpa [demoIpm] using hi
      interval_cases i <;> decide)
